import Mathlib

/-!
Verification of the PUT-credit-spread dashboard core (src/app.py) against its
specification. The numeric code is embedded over ℚ; Python's impure read of
today's date is made an explicit parameter, and operations that can raise a
Python ZeroDivisionError are embedded as Option-valued functions.
-/

namespace PCS

/-! ## Data model -/

/-- Event importance, as the string enum used by get_upcoming_events. -/
inductive Importance where
  | High
  | Medium
deriving DecidableEq, Repr

/-- A calendar event (date is a day number; today is passed separately). -/
structure CalendarEvent where
  date : ℤ
  event : String
  importance : Importance
deriving DecidableEq, Repr

/-- Risk classification returned by assess_risk. -/
inductive RiskLevel where
  | High
  | Medium
  | Low
deriving DecidableEq, Repr

/-- The reason strings appended by assess_risk, with the data each format
string interpolates. -/
inductive Reason where
  | invalidPriceData
  | upcomingEvent (name : String) (days : ℤ)
  | closeToSupport (level : ℚ)
  | moderatelyCloseToSupport (level : ℚ)
  | highIVGoodForSelling
  | lowIVLessPremium
deriving DecidableEq, Repr

/-- One row of the price-history frame; only the columns the core functions
read (High, Low, Close) are modelled. -/
structure PriceBar where
  high : ℚ
  low : ℚ
  close : ℚ
deriving DecidableEq, Repr

/-- Result of calculate_support_resistance. -/
structure TechnicalLevels where
  pivot : ℚ
  support : List ℚ
  resistance : List ℚ
deriving DecidableEq, Repr

/-- Result dict of calculate_put_spread. -/
structure SpreadMetrics where
  max_loss : ℚ
  max_profit : ℚ
  collateral : ℚ
  roi : ℚ
  capital_usage : ℚ
  break_even : ℚ
  spread_width : ℚ
deriving DecidableEq, Repr

/-! ## Technical-level calculator (app.py, calculate_support_resistance) -/

/-- pandas Series.max over a non-empty column, head and tail given. -/
def colMax (x : ℚ) (xs : List ℚ) : ℚ := xs.foldl max x

/-- pandas Series.min over a non-empty column, head and tail given. -/
def colMin (x : ℚ) (xs : List ℚ) : ℚ := xs.foldl min x

/-- The last bar of a non-empty history (closes.iloc[-1] reads its close). -/
def lastOf (b : PriceBar) (bs : List PriceBar) : PriceBar :=
  (b :: bs).getLast (List.cons_ne_nil b bs)

/-- Embedding of calculate_support_resistance: zeroed sentinel on an empty
history, otherwise classic floor-trader pivot points. -/
def calculate_support_resistance (hist : List PriceBar) : TechnicalLevels :=
  match hist with
  | [] => { pivot := 0, support := [0, 0], resistance := [0, 0] }
  | b :: bs =>
    let highMax := colMax b.high (bs.map PriceBar.high)
    let lowMin := colMin b.low (bs.map PriceBar.low)
    let lastC := (lastOf b bs).close
    let pivot := (highMax + lowMin + lastC) / 3
    let support1 := 2 * pivot - highMax
    let resistance1 := 2 * pivot - lowMin
    let support2 := pivot - (highMax - lowMin)
    let resistance2 := pivot + (highMax - lowMin)
    { pivot := pivot
      support := [support1, support2]
      resistance := [resistance1, resistance2] }

/-! ## Risk engine (app.py, assess_risk) -/

/-- Body of the event loop in assess_risk: an event within [0, dte] days adds
40 (High importance) or 20 and appends a reason; others are skipped. -/
def eventStep (today dte : ℤ) (acc : ℤ × List Reason) (e : CalendarEvent) :
    ℤ × List Reason :=
  let days_until_event := e.date - today
  if 0 ≤ days_until_event ∧ days_until_event ≤ dte then
    (acc.1 + (if e.importance = Importance.High then 40 else 20),
     acc.2 ++ [Reason.upcomingEvent e.event days_until_event])
  else acc

/-- Python's min(support_levels, key=lambda x: abs(x - current_price)):
scan left to right, replacing the best only on a strictly smaller key. -/
def closestSupport (current_price : ℚ) (x : ℚ) (xs : List ℚ) : ℚ :=
  xs.foldl
    (fun best y => if |y - current_price| < |best - current_price| then y else best) x

/-- The support-proximity block of assess_risk (skipped on an empty list). -/
def supportCheck (current_price : ℚ) (support_levels : List ℚ)
    (acc : ℤ × List Reason) : ℤ × List Reason :=
  match support_levels with
  | [] => acc
  | l :: ls =>
    let closest_support := closestSupport current_price l ls
    let support_distance_pct := (current_price - closest_support) / current_price * 100
    if support_distance_pct < 2 then
      (acc.1 + 30, acc.2 ++ [Reason.closeToSupport closest_support])
    else if support_distance_pct < 5 then
      (acc.1 + 15, acc.2 ++ [Reason.moderatelyCloseToSupport closest_support])
    else acc

/-- The IV-percentile block of assess_risk. -/
def ivCheck (iv_percentile : ℤ) (acc : ℤ × List Reason) : ℤ × List Reason :=
  if iv_percentile > 70 then (acc.1 - 10, acc.2 ++ [Reason.highIVGoodForSelling])
  else if iv_percentile < 30 then (acc.1 + 10, acc.2 ++ [Reason.lowIVLessPremium])
  else acc

/-- The final classification of assess_risk. -/
def riskLevelOf (risk_score : ℤ) : RiskLevel :=
  if risk_score ≥ 50 then RiskLevel.High
  else if risk_score ≥ 25 then RiskLevel.Medium
  else RiskLevel.Low

/-- Embedding of assess_risk. `today` makes the impure datetime.date.today()
read explicit; an event's day offset is e.date - today. -/
def assess_risk (today : ℤ) (events : List CalendarEvent) (dte : ℤ)
    (current_price : ℚ) (support_levels : List ℚ) (iv_percentile : ℤ) :
    RiskLevel × ℤ × List Reason :=
  if current_price = 0 then (RiskLevel.High, 100, [Reason.invalidPriceData])
  else
    let acc1 := events.foldl (eventStep today dte) (0, [])
    let acc2 := supportCheck current_price support_levels acc1
    let acc3 := ivCheck iv_percentile acc2
    let risk_score := max 0 (min 100 acc3.1)
    (riskLevelOf risk_score, risk_score, acc3.2)

/-! ## Spread metrics and position sizing (app.py, calculate_put_spread and
the sizing arithmetic in main) -/

/-- Python int() on a rational: truncation toward zero. -/
def truncQ (q : ℚ) : ℤ := if 0 ≤ q then ⌊q⌋ else -⌊-q⌋

/-- The contract-sizing arithmetic of main (lines 474-478):
max_loss_per_contract = (width - premium) * 100 and
contracts = max(1, int(max_risk_amount / max_loss_per_contract)).
Returns none exactly when Python raises ZeroDivisionError. -/
def position_contracts (capital max_risk_pct short_strike long_strike premium : ℚ) :
    Option ℤ :=
  let max_risk_amount := capital * (max_risk_pct / 100)
  let spread_width_dollar := short_strike - long_strike
  let max_loss_per_contract := (spread_width_dollar - premium) * 100
  if max_loss_per_contract = 0 then none
  else some (max 1 (truncQ (max_risk_amount / max_loss_per_contract)))

/-- Embedding of calculate_put_spread. Returns none exactly when Python
raises ZeroDivisionError (collateral = 0 for roi, capital = 0 for usage). -/
def calculate_put_spread (current_price short_strike long_strike premium : ℚ)
    (contracts : ℤ) (capital : ℚ) : Option SpreadMetrics :=
  let spread_width := short_strike - long_strike
  let max_loss := (spread_width - premium) * 100 * (contracts : ℚ)
  let max_profit := premium * 100 * (contracts : ℚ)
  let collateral := spread_width * 100 * (contracts : ℚ)
  if collateral = 0 then none
  else if capital = 0 then none
  else
    some { max_loss := max_loss
           max_profit := max_profit
           collateral := collateral
           roi := max_profit / collateral * 100
           capital_usage := collateral / capital * 100
           break_even := short_strike - premium
           spread_width := spread_width }

/-! ## Profit/loss curve (app.py, generate_pl_curve) -/

/-- The i-th of np.linspace(long_strike - 5, current_price + 10, 100). -/
def plPrice (current_price long_strike : ℚ) (i : ℕ) : ℚ :=
  (long_strike - 5) + (i : ℚ) * ((current_price + 10) - (long_strike - 5)) / 99

/-- The piecewise payoff of the loop body of generate_pl_curve. -/
def plPnl (short_strike long_strike premium : ℚ) (contracts : ℤ) (price : ℚ) : ℚ :=
  if price ≥ short_strike then premium * 100 * (contracts : ℚ)
  else if price ≤ long_strike then
    (premium - (short_strike - long_strike)) * 100 * (contracts : ℚ)
  else (premium - (short_strike - price)) * 100 * (contracts : ℚ)

/-- Embedding of generate_pl_curve. -/
def generate_pl_curve (current_price short_strike long_strike premium : ℚ)
    (contracts : ℤ) : List ℚ × List ℚ :=
  let price_points := (List.range 100).map (plPrice current_price long_strike)
  (price_points, price_points.map (plPnl short_strike long_strike premium contracts))

/-! ## Spec-side definitions (from the specification's words, for the
refinement claims about assess_risk) -/

/-- Spec: an event counts when 0 ≤ (eventDate - today) ≤ dte. -/
def eventInWindow (today dte : ℤ) (e : CalendarEvent) : Bool :=
  decide (0 ≤ e.date - today) && decide (e.date - today ≤ dte)

/-- Spec: an in-window event contributes 40 if High importance, else 20. -/
def eventWeight (e : CalendarEvent) : ℤ :=
  if e.importance = Importance.High then 40 else 20

/-- Spec: the first element of the list minimising the absolute distance to
the current price (ties resolved to the earlier element). -/
def firstMinAbs (current_price : ℚ) : ℚ → List ℚ → ℚ
  | x, [] => x
  | x, y :: ys =>
    let c := firstMinAbs current_price y ys
    if |x - current_price| ≤ |c - current_price| then x else c

/-! ## Helper lemmas -/

/-- A fold of max over a column bounds the seed and every element. -/
lemma colMax_spec (xs : List ℚ) : ∀ x : ℚ,
    x ≤ colMax x xs ∧ ∀ y ∈ xs, y ≤ colMax x xs := by
  induction xs with
  | nil => intro x; exact ⟨le_refl x, by simp⟩
  | cons y ys ih =>
    intro x
    have hstep : colMax x (y :: ys) = colMax (max x y) ys := rfl
    constructor
    · rw [hstep]
      exact le_trans (le_max_left x y) (ih (max x y)).1
    · intro z hz
      rcases List.mem_cons.mp hz with h | h
      · subst h
        rw [hstep]
        exact le_trans (le_max_right x z) (ih (max x z)).1
      · rw [hstep]
        exact (ih (max x y)).2 z h

/-- A fold of min over a column is below the seed and every element. -/
lemma colMin_spec (xs : List ℚ) : ∀ x : ℚ,
    colMin x xs ≤ x ∧ ∀ y ∈ xs, colMin x xs ≤ y := by
  induction xs with
  | nil => intro x; exact ⟨le_refl x, by simp⟩
  | cons y ys ih =>
    intro x
    have hstep : colMin x (y :: ys) = colMin (min x y) ys := rfl
    constructor
    · rw [hstep]
      exact le_trans (ih (min x y)).1 (min_le_left x y)
    · intro z hz
      rcases List.mem_cons.mp hz with h | h
      · subst h
        rw [hstep]
        exact le_trans (ih (min x z)).1 (min_le_right x z)
      · rw [hstep]
        exact (ih (min x y)).2 z h

/-- The last bar of a non-empty history is one of its bars. -/
lemma lastOf_mem (b : PriceBar) (bs : List PriceBar) : lastOf b bs ∈ b :: bs :=
  List.getLast_mem (List.cons_ne_nil b bs)

/-! ## Claims -/

/-- Claim C1 (code_bug evidence): the contract-sizing code raises no
InvalidSpreadParameters error when premium exceeds the spread width; with
capital=1000, max_risk_pct=3, short=95, long=91, premium=5 (premium > width=4)
it silently returns max(1, int(30 / -100)) = 1 contract, and with premium=4
(premium = width) it hits a Python ZeroDivisionError (modelled as none)
instead of the specified error. -/
theorem claim_C1_eval : position_contracts 1000 3 95 91 5 = some 1 ∧
    position_contracts 1000 3 95 91 4 = none := by
  constructor
  · unfold position_contracts truncQ
    norm_num
  · unfold position_contracts
    norm_num

/-- Claim C2: assess_risk with current_price = 0 returns exactly
(High, 100, ["Invalid price data"]) regardless of every other argument. -/
theorem claim_C2 : ∀ (today : ℤ) (events : List CalendarEvent) (dte : ℤ)
    (support_levels : List ℚ) (iv_percentile : ℤ),
    assess_risk today events dte 0 support_levels iv_percentile
      = (RiskLevel.High, 100, [Reason.invalidPriceData]) := by
  intro today events dte support_levels iv_percentile
  unfold assess_risk
  simp

/-- Claim C3: calculate_support_resistance returns the zeroed sentinel on an
empty series, and on a non-empty series returns exactly the floor-trader
pivot formulas: pivot = (max high + min low + last close)/3,
support = [2*pivot - max high, pivot - range],
resistance = [2*pivot - min low, pivot + range]. -/
theorem claim_C3 :
    calculate_support_resistance []
      = { pivot := 0, support := [0, 0], resistance := [0, 0] } ∧
    ∀ (b : PriceBar) (bs : List PriceBar),
      calculate_support_resistance (b :: bs) =
        { pivot := (colMax b.high (bs.map PriceBar.high)
              + colMin b.low (bs.map PriceBar.low) + (lastOf b bs).close) / 3
          support :=
            [2 * ((colMax b.high (bs.map PriceBar.high)
                + colMin b.low (bs.map PriceBar.low) + (lastOf b bs).close) / 3)
              - colMax b.high (bs.map PriceBar.high),
             (colMax b.high (bs.map PriceBar.high)
                + colMin b.low (bs.map PriceBar.low) + (lastOf b bs).close) / 3
              - (colMax b.high (bs.map PriceBar.high)
                - colMin b.low (bs.map PriceBar.low))]
          resistance :=
            [2 * ((colMax b.high (bs.map PriceBar.high)
                + colMin b.low (bs.map PriceBar.low) + (lastOf b bs).close) / 3)
              - colMin b.low (bs.map PriceBar.low),
             (colMax b.high (bs.map PriceBar.high)
                + colMin b.low (bs.map PriceBar.low) + (lastOf b bs).close) / 3
              + (colMax b.high (bs.map PriceBar.high)
                - colMin b.low (bs.map PriceBar.low))] } := by
  constructor
  · rfl
  · intro b bs
    rfl

/-- Claim C4: on any non-empty series of genuine OHLC bars (low ≤ close ≤
high on each bar) the computed pivot equals (maxHigh + minLow + lastClose)/3
exactly and every support is at most the pivot while every resistance is at
least the pivot. -/
theorem claim_C4 : ∀ (b : PriceBar) (bs : List PriceBar),
    (∀ x ∈ b :: bs, x.low ≤ x.close ∧ x.close ≤ x.high) →
    (calculate_support_resistance (b :: bs)).pivot
        = (colMax b.high (bs.map PriceBar.high)
            + colMin b.low (bs.map PriceBar.low) + (lastOf b bs).close) / 3 ∧
    (∀ s ∈ (calculate_support_resistance (b :: bs)).support,
      s ≤ (calculate_support_resistance (b :: bs)).pivot) ∧
    (∀ r ∈ (calculate_support_resistance (b :: bs)).resistance,
      (calculate_support_resistance (b :: bs)).pivot ≤ r) := by
  intro b bs hvalid
  have hlastmem := lastOf_mem b bs
  have hlast := hvalid (lastOf b bs) hlastmem
  -- the column max dominates the last bar's high
  have hH : (lastOf b bs).high ≤ colMax b.high (bs.map PriceBar.high) := by
    rcases List.mem_cons.mp hlastmem with h | h
    · rw [h]
      exact (colMax_spec (bs.map PriceBar.high) b.high).1
    · exact (colMax_spec (bs.map PriceBar.high) b.high).2 _
        (List.mem_map_of_mem PriceBar.high h)
  -- the column min is below the last bar's low
  have hL : colMin b.low (bs.map PriceBar.low) ≤ (lastOf b bs).low := by
    rcases List.mem_cons.mp hlastmem with h | h
    · rw [h]
      exact (colMin_spec (bs.map PriceBar.low) b.low).1
    · exact (colMin_spec (bs.map PriceBar.low) b.low).2 _
        (List.mem_map_of_mem PriceBar.low h)
  have hLC : colMin b.low (bs.map PriceBar.low) ≤ (lastOf b bs).close :=
    le_trans hL hlast.1
  have hCH : (lastOf b bs).close ≤ colMax b.high (bs.map PriceBar.high) :=
    le_trans hlast.2 hH
  have hLH : colMin b.low (bs.map PriceBar.low)
      ≤ colMax b.high (bs.map PriceBar.high) := le_trans hLC hCH
  have heq : calculate_support_resistance (b :: bs) =
      { pivot := (colMax b.high (bs.map PriceBar.high)
            + colMin b.low (bs.map PriceBar.low) + (lastOf b bs).close) / 3
        support :=
          [2 * ((colMax b.high (bs.map PriceBar.high)
              + colMin b.low (bs.map PriceBar.low) + (lastOf b bs).close) / 3)
            - colMax b.high (bs.map PriceBar.high),
           (colMax b.high (bs.map PriceBar.high)
              + colMin b.low (bs.map PriceBar.low) + (lastOf b bs).close) / 3
            - (colMax b.high (bs.map PriceBar.high)
              - colMin b.low (bs.map PriceBar.low))]
        resistance :=
          [2 * ((colMax b.high (bs.map PriceBar.high)
              + colMin b.low (bs.map PriceBar.low) + (lastOf b bs).close) / 3)
            - colMin b.low (bs.map PriceBar.low),
           (colMax b.high (bs.map PriceBar.high)
              + colMin b.low (bs.map PriceBar.low) + (lastOf b bs).close) / 3
            + (colMax b.high (bs.map PriceBar.high)
              - colMin b.low (bs.map PriceBar.low))] } := rfl
  rw [heq]
  refine ⟨rfl, ?_, ?_⟩
  · intro s hs
    simp only [List.mem_cons, List.not_mem_nil, or_false] at hs
    rcases hs with h | h <;> rw [h] <;> linarith
  · intro r hr
    simp only [List.mem_cons, List.not_mem_nil, or_false] at hr
    rcases hr with h | h <;> rw [h] <;> linarith

/-- Witness for claim C4: a concrete one-bar valid series. -/
theorem claim_C4_witness :
    (∀ x ∈ [PriceBar.mk 10 8 9], x.low ≤ x.close ∧ x.close ≤ x.high) ∧
    ((calculate_support_resistance [PriceBar.mk 10 8 9]).pivot
        = (colMax (10:ℚ) [] + colMin (8:ℚ) [] + (lastOf (PriceBar.mk 10 8 9) []).close) / 3 ∧
    (∀ s ∈ (calculate_support_resistance [PriceBar.mk 10 8 9]).support,
      s ≤ (calculate_support_resistance [PriceBar.mk 10 8 9]).pivot) ∧
    (∀ r ∈ (calculate_support_resistance [PriceBar.mk 10 8 9]).resistance,
      (calculate_support_resistance [PriceBar.mk 10 8 9]).pivot ≤ r)) :=
  ⟨by norm_num, claim_C4 (PriceBar.mk 10 8 9) [] (by norm_num)⟩

/-- The event loop accumulates exactly the weights and reasons of the
in-window events, in order. -/
lemma eventsFold (today dte : ℤ) : ∀ (es : List CalendarEvent) (s : ℤ)
    (r : List Reason),
    es.foldl (eventStep today dte) (s, r)
      = (s + ((es.filter (eventInWindow today dte)).map eventWeight).sum,
         r ++ (es.filter (eventInWindow today dte)).map
           (fun e => Reason.upcomingEvent e.event (e.date - today))) := by
  intro es
  induction es with
  | nil => intro s r; simp
  | cons e es ih =>
    intro s r
    by_cases h : 0 ≤ e.date - today ∧ e.date - today ≤ dte
    · have hw : eventInWindow today dte e = true := by
        simp [eventInWindow, h.1, h.2]
      have hstep : eventStep today dte (s, r) e
          = (s + eventWeight e, r ++ [Reason.upcomingEvent e.event (e.date - today)]) := by
        simp [eventStep, h, eventWeight]
      rw [List.foldl_cons, hstep, ih]
      simp [List.filter_cons, hw, add_assoc]
    · have hw : eventInWindow today dte e = false := by
        simp only [eventInWindow, Bool.and_eq_false_iff, decide_eq_false_iff_not]
        omega
      have hstep : eventStep today dte (s, r) e = (s, r) := by
        simp only [eventStep]
        rw [if_neg h]
      rw [List.foldl_cons, hstep, ih]
      simp [List.filter_cons, hw]

/-- One unfolding step of the Python min scan. -/
lemma closestSupport_cons (cp x y : ℚ) (ys : List ℚ) :
    closestSupport cp x (y :: ys)
      = closestSupport cp (if |y - cp| < |x - cp| then y else x) ys := rfl

/-- The scanned minimum is one of the candidates. -/
lemma closestSupport_mem (cp : ℚ) : ∀ (xs : List ℚ) (x : ℚ),
    closestSupport cp x xs ∈ x :: xs := by
  intro xs
  induction xs with
  | nil => intro x; simp [closestSupport]
  | cons y ys ih =>
    intro x
    rw [closestSupport_cons]
    rcases List.mem_cons.mp (ih (if |y - cp| < |x - cp| then y else x)) with h | h
    · rw [h]
      split_ifs
      · exact List.mem_cons_of_mem x (List.mem_cons_self y ys)
      · exact List.mem_cons_self x (y :: ys)
    · exact List.mem_cons_of_mem x (List.mem_cons_of_mem y h)

/-- The scanned minimum has the least absolute distance to the price. -/
lemma closestSupport_le (cp : ℚ) : ∀ (xs : List ℚ) (x : ℚ),
    |closestSupport cp x xs - cp| ≤ |x - cp| ∧
    ∀ y ∈ xs, |closestSupport cp x xs - cp| ≤ |y - cp| := by
  intro xs
  induction xs with
  | nil => intro x; exact ⟨by simp [closestSupport], by simp⟩
  | cons y ys ih =>
    intro x
    rw [closestSupport_cons]
    constructor
    · by_cases hc : |y - cp| < |x - cp|
      · rw [if_pos hc]
        exact le_trans (ih y).1 (le_of_lt hc)
      · rw [if_neg hc]
        exact (ih x).1
    · intro z hz
      rcases List.mem_cons.mp hz with h | h
      · subst h
        by_cases hc : |z - cp| < |x - cp|
        · rw [if_pos hc]
          exact (ih z).1
        · rw [if_neg hc]
          push_neg at hc
          exact le_trans (ih x).1 hc
      · by_cases hc : |y - cp| < |x - cp|
        · rw [if_pos hc]
          exact (ih y).2 z h
        · rw [if_neg hc]
          exact (ih x).2 z h

/-- One unfolding step of the spec-side first minimiser. -/
lemma firstMinAbs_cons (cp x y : ℚ) (ys : List ℚ) :
    firstMinAbs cp x (y :: ys)
      = if |x - cp| ≤ |firstMinAbs cp y ys - cp| then x
        else firstMinAbs cp y ys := rfl

/-- The spec-side first minimiser has the least absolute distance. -/
lemma firstMinAbs_le (cp : ℚ) : ∀ (xs : List ℚ) (x : ℚ),
    |firstMinAbs cp x xs - cp| ≤ |x - cp| ∧
    ∀ y ∈ xs, |firstMinAbs cp x xs - cp| ≤ |y - cp| := by
  intro xs
  induction xs with
  | nil => intro x; exact ⟨le_refl _, by simp⟩
  | cons y ys ih =>
    intro x
    rw [firstMinAbs_cons]
    constructor
    · split_ifs with hc
      · exact le_refl _
      · push_neg at hc
        exact le_of_lt hc
    · intro z hz
      rcases List.mem_cons.mp hz with h | h
      · subst h
        split_ifs with hc
        · exact le_trans hc (ih z).1
        · exact (ih z).1
      · split_ifs with hc
        · exact le_trans hc ((ih y).2 z h)
        · exact (ih y).2 z h

/-- The left-to-right scan with strict improvement computes the spec's first
minimiser (ties resolved to the earlier element). -/
lemma closestSupport_eq_firstMinAbs (cp : ℚ) : ∀ (xs : List ℚ) (x : ℚ),
    closestSupport cp x xs = firstMinAbs cp x xs := by
  intro xs
  induction xs with
  | nil => intro x; rfl
  | cons y ys ih =>
    intro x
    rw [closestSupport_cons, ih, firstMinAbs_cons]
    by_cases hc : |y - cp| < |x - cp|
    · rw [if_pos hc, if_neg]
      push_neg
      exact lt_of_le_of_lt (firstMinAbs_le cp ys y).1 hc
    · rw [if_neg hc]
      push_neg at hc
      cases ys with
      | nil =>
        show x = if |x - cp| ≤ |firstMinAbs cp y [] - cp| then x else firstMinAbs cp y []
        rw [if_pos]
        exact hc
      | cons z zs =>
        rw [firstMinAbs_cons, firstMinAbs_cons]
        by_cases hA : |x - cp| ≤ |firstMinAbs cp z zs - cp|
        · rw [if_pos hA]
          by_cases hB : |y - cp| ≤ |firstMinAbs cp z zs - cp|
          · rw [if_pos hB, if_pos hc]
          · rw [if_neg hB, if_pos hA]
        · rw [if_neg hA]
          push_neg at hA
          have hB : ¬ |y - cp| ≤ |firstMinAbs cp z zs - cp| := by
            push_neg
            exact lt_of_lt_of_le hA hc
          rw [if_neg hB, if_neg (by push_neg; exact hA)]

/-- riskLevelOf classifies as High exactly on scores of at least 50. -/
lemma riskLevelOf_high_iff (x : ℤ) : riskLevelOf x = RiskLevel.High ↔ 50 ≤ x := by
  unfold riskLevelOf
  split_ifs with h1 h2 <;> simp <;> omega

/-- riskLevelOf classifies as Medium exactly on scores in [25, 50). -/
lemma riskLevelOf_medium_iff (x : ℤ) :
    riskLevelOf x = RiskLevel.Medium ↔ 25 ≤ x ∧ x < 50 := by
  unfold riskLevelOf
  split_ifs with h1 h2 <;> simp <;> omega

/-- riskLevelOf classifies as Low exactly on scores below 25. -/
lemma riskLevelOf_low_iff (x : ℤ) : riskLevelOf x = RiskLevel.Low ↔ x < 25 := by
  unfold riskLevelOf
  split_ifs with h1 h2 <;> simp <;> omega

/-- Claim C5: inside assess_risk (with a non-zero price) each event whose day
offset lies in [0, dte] contributes exactly 40 (High importance) or 20 to the
accumulated score and appends exactly one reason naming the event and its day
offset, while events outside the window contribute nothing: the event loop
equals the sum/map over the in-window events, and the whole assessment is a
function of that filtered summary. -/
theorem claim_C5 : ∀ (today dte : ℤ) (es : List CalendarEvent),
    (∀ (s : ℤ) (r : List Reason),
      es.foldl (eventStep today dte) (s, r)
        = (s + ((es.filter (eventInWindow today dte)).map eventWeight).sum,
           r ++ (es.filter (eventInWindow today dte)).map
             (fun e => Reason.upcomingEvent e.event (e.date - today)))) ∧
    (∀ (cp : ℚ) (sl : List ℚ) (iv : ℤ), cp ≠ 0 →
      assess_risk today es dte cp sl iv =
        (let acc3 := ivCheck iv (supportCheck cp sl
            (((es.filter (eventInWindow today dte)).map eventWeight).sum,
             (es.filter (eventInWindow today dte)).map
               (fun e => Reason.upcomingEvent e.event (e.date - today))));
         (riskLevelOf (max 0 (min 100 acc3.1)), max 0 (min 100 acc3.1), acc3.2))) := by
  intro today dte es
  constructor
  · intro s r
    exact eventsFold today dte es s r
  · intro cp sl iv hcp
    simp only [assess_risk, if_neg hcp]
    rw [eventsFold today dte es 0 []]
    simp

/-- Witness for claim C5: the spec's concrete scenario, a High-importance
event 10 days out with dte = 14 contributes +40 and its reason. -/
theorem claim_C5_witness :
    assess_risk 0 [CalendarEvent.mk 10 "Earnings Release" Importance.High] 14 100 [] 50
      = (RiskLevel.Medium, 40, [Reason.upcomingEvent "Earnings Release" 10]) := by
  have h := (claim_C5 0 14 [CalendarEvent.mk 10 "Earnings Release" Importance.High]).2
    100 [] 50 (by norm_num)
  rw [h]
  norm_num [eventInWindow, eventWeight, supportCheck, ivCheck, riskLevelOf]

/-- Claim C6: the support contribution uses the support level minimising the
absolute distance to the current price with ties resolved to the earlier
element; with distancePct = (price - closest)/price*100 it adds 30 below 2,
else 15 below 5, else nothing, and a negative distancePct lands in the +30
branch. -/
theorem claim_C6 : ∀ (cp l : ℚ) (ls : List ℚ) (s : ℤ) (r : List Reason),
    closestSupport cp l ls ∈ l :: ls ∧
    (∀ y ∈ l :: ls, |closestSupport cp l ls - cp| ≤ |y - cp|) ∧
    closestSupport cp l ls = firstMinAbs cp l ls ∧
    ((cp - closestSupport cp l ls) / cp * 100 < 2 →
      supportCheck cp (l :: ls) (s, r)
        = (s + 30, r ++ [Reason.closeToSupport (closestSupport cp l ls)])) ∧
    (¬ (cp - closestSupport cp l ls) / cp * 100 < 2 →
      (cp - closestSupport cp l ls) / cp * 100 < 5 →
      supportCheck cp (l :: ls) (s, r)
        = (s + 15, r ++ [Reason.moderatelyCloseToSupport (closestSupport cp l ls)])) ∧
    (¬ (cp - closestSupport cp l ls) / cp * 100 < 5 →
      supportCheck cp (l :: ls) (s, r) = (s, r)) ∧
    ((cp - closestSupport cp l ls) / cp * 100 < 0 →
      (supportCheck cp (l :: ls) (s, r)).1 = s + 30) := by
  intro cp l ls s r
  refine ⟨closestSupport_mem cp ls l, ?_, closestSupport_eq_firstMinAbs cp ls l,
    ?_, ?_, ?_, ?_⟩
  · intro y hy
    rcases List.mem_cons.mp hy with h | h
    · rw [h]
      exact (closestSupport_le cp ls l).1
    · exact (closestSupport_le cp ls l).2 y h
  · intro hd
    simp only [supportCheck]
    rw [if_pos hd]
  · intro hd2 hd5
    simp only [supportCheck]
    rw [if_neg hd2, if_pos hd5]
  · intro hd5
    have hd2 : ¬ (cp - closestSupport cp l ls) / cp * 100 < 2 := by
      intro hlt
      exact hd5 (lt_trans hlt (by norm_num))
    simp only [supportCheck]
    rw [if_neg hd2, if_neg hd5]
  · intro hneg
    have hd : (cp - closestSupport cp l ls) / cp * 100 < 2 :=
      lt_trans hneg (by norm_num)
    simp only [supportCheck]
    rw [if_pos hd]

/-- Witness for claim C6: price 100 with supports [101, 50]; the closest
support is 101 (above the price), distancePct = -1 < 0, and the check adds
30. -/
theorem claim_C6_witness :
    ((100 : ℚ) - closestSupport 100 101 [50]) / 100 * 100 < 0 ∧
    (supportCheck 100 [101, 50] (0, [])).1 = 0 + 30 := by
  have hc : closestSupport 100 101 [50] = 101 := by
    rw [closestSupport_cons]
    norm_num [closestSupport]
  have hd : ((100 : ℚ) - closestSupport 100 101 [50]) / 100 * 100 < 0 := by
    rw [hc]
    norm_num
  exact ⟨hd, (claim_C6 100 101 [50] 0 []).2.2.2.2.2.2 hd⟩

/-- Claim C7: for a non-zero price the returned score is clamped to [0, 100]
and the level is High iff score ≥ 50, Medium iff 25 ≤ score < 50, Low iff
score < 25. -/
theorem claim_C7 : ∀ (today : ℤ) (es : List CalendarEvent) (dte : ℤ)
    (cp : ℚ) (sl : List ℚ) (iv : ℤ), cp ≠ 0 →
    0 ≤ (assess_risk today es dte cp sl iv).2.1 ∧
    (assess_risk today es dte cp sl iv).2.1 ≤ 100 ∧
    ((assess_risk today es dte cp sl iv).1 = RiskLevel.High ↔
      50 ≤ (assess_risk today es dte cp sl iv).2.1) ∧
    ((assess_risk today es dte cp sl iv).1 = RiskLevel.Medium ↔
      25 ≤ (assess_risk today es dte cp sl iv).2.1 ∧
        (assess_risk today es dte cp sl iv).2.1 < 50) ∧
    ((assess_risk today es dte cp sl iv).1 = RiskLevel.Low ↔
      (assess_risk today es dte cp sl iv).2.1 < 25) := by
  intro today es dte cp sl iv hcp
  simp only [assess_risk, if_neg hcp]
  refine ⟨le_max_left _ _, max_le (by norm_num) (min_le_left _ _),
    riskLevelOf_high_iff _, riskLevelOf_medium_iff _, riskLevelOf_low_iff _⟩

/-- Witness for claim C7: a concrete assessment with price 1. -/
theorem claim_C7_witness : ((1 : ℚ) ≠ 0) ∧
    (0 ≤ (assess_risk 0 [] 0 1 [] 50).2.1 ∧
    (assess_risk 0 [] 0 1 [] 50).2.1 ≤ 100 ∧
    ((assess_risk 0 [] 0 1 [] 50).1 = RiskLevel.High ↔
      50 ≤ (assess_risk 0 [] 0 1 [] 50).2.1) ∧
    ((assess_risk 0 [] 0 1 [] 50).1 = RiskLevel.Medium ↔
      25 ≤ (assess_risk 0 [] 0 1 [] 50).2.1 ∧
        (assess_risk 0 [] 0 1 [] 50).2.1 < 50) ∧
    ((assess_risk 0 [] 0 1 [] 50).1 = RiskLevel.Low ↔
      (assess_risk 0 [] 0 1 [] 50).2.1 < 25)) :=
  ⟨by norm_num, claim_C7 0 [] 0 1 [] 50 (by norm_num)⟩

/-- Claim C8: the curve samples 100 evenly spaced prices from longStrike - 5
to currentPrice + 10, the pnl at each sampled price follows the piecewise
credit-spread payoff, and the pieces agree at both strikes (the curve is
continuous there). Stated for a genuine spread (longStrike ≤ shortStrike). -/
theorem claim_C8 : ∀ (cp ss ls prem : ℚ) (c : ℤ), ls ≤ ss →
    (generate_pl_curve cp ss ls prem c).1 = (List.range 100).map (plPrice cp ls) ∧
    (∀ i : ℕ, i < 100 →
      ((generate_pl_curve cp ss ls prem c).1)[i]? = some (plPrice cp ls i) ∧
      ((generate_pl_curve cp ss ls prem c).2)[i]?
        = some (plPnl ss ls prem c (plPrice cp ls i))) ∧
    plPrice cp ls 0 = ls - 5 ∧
    plPrice cp ls 99 = cp + 10 ∧
    (∀ i : ℕ, plPrice cp ls (i + 1) - plPrice cp ls i
      = ((cp + 10) - (ls - 5)) / 99) ∧
    (∀ p : ℚ, ss ≤ p → plPnl ss ls prem c p = prem * 100 * (c : ℚ)) ∧
    (∀ p : ℚ, p ≤ ls → plPnl ss ls prem c p
      = (prem - (ss - ls)) * 100 * (c : ℚ)) ∧
    (∀ p : ℚ, ls < p → p < ss → plPnl ss ls prem c p
      = (prem - (ss - p)) * 100 * (c : ℚ)) ∧
    (prem - (ss - ss)) * 100 * (c : ℚ) = prem * 100 * (c : ℚ) ∧
    (prem - (ss - ls)) * 100 * (c : ℚ) = plPnl ss ls prem c ls := by
  intro cp ss ls prem c hls
  refine ⟨rfl, ?_, ?_, ?_, ?_, ?_, ?_, ?_, by ring, ?_⟩
  · intro i hi
    constructor
    · show ((List.range 100).map (plPrice cp ls))[i]? = some (plPrice cp ls i)
      rw [List.getElem?_map, List.getElem?_range hi]
      rfl
    · show (((List.range 100).map (plPrice cp ls)).map
          (plPnl ss ls prem c))[i]? = some (plPnl ss ls prem c (plPrice cp ls i))
      rw [List.getElem?_map, List.getElem?_map, List.getElem?_range hi]
      rfl
  · unfold plPrice
    norm_num
  · unfold plPrice
    push_cast
    ring
  · intro i
    unfold plPrice
    push_cast
    ring
  · intro p hp
    unfold plPnl
    rw [if_pos hp]
  · intro p hp
    unfold plPnl
    by_cases h1 : p ≥ ss
    · rw [if_pos h1]
      have hss : ss = ls := le_antisymm (le_trans h1 hp) hls
      rw [hss]
      ring
    · rw [if_neg h1, if_pos hp]
  · intro p h1 h2
    unfold plPnl
    rw [if_neg (not_le.mpr h2), if_neg (not_le.mpr h1)]
  · unfold plPnl
    by_cases ha : ls ≥ ss
    · rw [if_pos ha]
      have hss : ss = ls := le_antisymm ha hls
      rw [hss]
      ring
    · rw [if_neg ha, if_pos (le_refl ls)]

/-- Witness for claim C8: the spec's concrete spread, current price 100,
short strike 95, long strike 90.25, premium 1.66, one contract. -/
theorem claim_C8_witness : ((90.25 : ℚ) ≤ 95) ∧
    ((generate_pl_curve 100 95 90.25 1.66 1).1
        = (List.range 100).map (plPrice 100 90.25) ∧
    (∀ i : ℕ, i < 100 →
      ((generate_pl_curve 100 95 90.25 1.66 1).1)[i]?
          = some (plPrice 100 90.25 i) ∧
      ((generate_pl_curve 100 95 90.25 1.66 1).2)[i]?
          = some (plPnl 95 90.25 1.66 1 (plPrice 100 90.25 i))) ∧
    plPrice 100 90.25 0 = 90.25 - 5 ∧
    plPrice 100 90.25 99 = 100 + 10 ∧
    (∀ i : ℕ, plPrice 100 90.25 (i + 1) - plPrice 100 90.25 i
      = ((100 + 10) - (90.25 - 5)) / 99) ∧
    (∀ p : ℚ, 95 ≤ p → plPnl 95 90.25 1.66 1 p = 1.66 * 100 * ((1 : ℤ) : ℚ)) ∧
    (∀ p : ℚ, p ≤ 90.25 → plPnl 95 90.25 1.66 1 p
      = (1.66 - (95 - 90.25)) * 100 * ((1 : ℤ) : ℚ)) ∧
    (∀ p : ℚ, 90.25 < p → p < 95 → plPnl 95 90.25 1.66 1 p
      = (1.66 - (95 - p)) * 100 * ((1 : ℤ) : ℚ)) ∧
    (1.66 - ((95 : ℚ) - 95)) * 100 * ((1 : ℤ) : ℚ) = 1.66 * 100 * ((1 : ℤ) : ℚ) ∧
    (1.66 - ((95 : ℚ) - 90.25)) * 100 * ((1 : ℤ) : ℚ)
      = plPnl 95 90.25 1.66 1 90.25) :=
  ⟨by norm_num, claim_C8 100 95 90.25 1.66 1 (by norm_num)⟩

/-- Claim C9: with a non-zero price and no support levels assess_risk skips
the support-proximity check entirely: the block is the identity and the
assessment is exactly the event and volatility phases composed. -/
theorem claim_C9 : ∀ (today : ℤ) (es : List CalendarEvent) (dte : ℤ)
    (cp : ℚ) (iv : ℤ) (acc : ℤ × List Reason), cp ≠ 0 →
    supportCheck cp [] acc = acc ∧
    assess_risk today es dte cp [] iv =
      (let acc3 := ivCheck iv (es.foldl (eventStep today dte) (0, []));
       (riskLevelOf (max 0 (min 100 acc3.1)), max 0 (min 100 acc3.1), acc3.2)) := by
  intro today es dte cp iv acc hcp
  refine ⟨rfl, ?_⟩
  simp only [assess_risk, if_neg hcp]
  rfl

/-- Witness for claim C9: a concrete call with price 100 and no supports. -/
theorem claim_C9_witness : ((100 : ℚ) ≠ 0) ∧
    (supportCheck 100 [] (7, [Reason.invalidPriceData]) = (7, [Reason.invalidPriceData]) ∧
    assess_risk 0 [] 14 100 [] 50 =
      (let acc3 := ivCheck 50 (List.foldl (eventStep 0 14) (0, []) []);
       (riskLevelOf (max 0 (min 100 acc3.1)), max 0 (min 100 acc3.1), acc3.2))) :=
  ⟨by norm_num, claim_C9 0 [] 14 100 50 (7, [Reason.invalidPriceData]) (by norm_num)⟩

/-- Claim C10: whenever calculate_put_spread returns metrics, they satisfy
max_profit + max_loss = collateral. -/
theorem claim_C10 : ∀ (cp ss ls prem : ℚ) (c : ℤ) (cap : ℚ) (m : SpreadMetrics),
    calculate_put_spread cp ss ls prem c cap = some m →
    m.max_profit + m.max_loss = m.collateral := by
  intro cp ss ls prem c cap m hm
  simp only [calculate_put_spread] at hm
  split_ifs at hm
  injection hm with hm
  subst hm
  show prem * 100 * (c : ℚ) + (ss - ls - prem) * 100 * (c : ℚ)
    = (ss - ls) * 100 * (c : ℚ)
  ring

/-- Witness for claim C10: the spec's concrete spread metrics. -/
theorem claim_C10_witness :
    calculate_put_spread 100 95 90.25 1.66 1 1000
      = some (SpreadMetrics.mk 309 166 475 (664 / 19) 47.5 93.34 4.75) ∧
    (SpreadMetrics.mk 309 166 475 ((664 : ℚ) / 19) 47.5 93.34 4.75).max_profit +
      (SpreadMetrics.mk 309 166 475 ((664 : ℚ) / 19) 47.5 93.34 4.75).max_loss =
      (SpreadMetrics.mk 309 166 475 ((664 : ℚ) / 19) 47.5 93.34 4.75).collateral := by
  have h : calculate_put_spread 100 95 90.25 1.66 1 1000
      = some (SpreadMetrics.mk 309 166 475 (664 / 19) 47.5 93.34 4.75) := by
    unfold calculate_put_spread
    norm_num [SpreadMetrics.mk.injEq]
  exact ⟨h, claim_C10 100 95 90.25 1.66 1 1000 _ h⟩

end PCS
